import Mathlib

/-!
Shallow embedding of the BouvetRadar backend core (classification index,
hierarchy builder, location resolver, parameter validators) together with
proofs about the properties of those operations.

The Python sources embedded here are:
  `src/service/ssb_service.py`    (SSBService, NUTSService, STYRKService)
  `src/service/doffin_service.py` (DoffinService)
  `src/validation/doffin_validators.py`
  `src/validation/ssb_validators.py`
  `exceptions/*` (error classes, modelled structurally)

Python built-in string operations (`str.strip`, `str.lower`, `str.upper`,
`int(...)`) are modelled by executable functions over `List Char` so that
every definition reduces in the kernel.  The models cover the ASCII
behaviour of those built-ins, which is the behaviour exercised by the
classification data and the validators.
-/

namespace BouvetRadar

/-- Model of Python `str.strip()`: drop leading and trailing whitespace. -/
def py_strip (s : String) : String :=
  ⟨((s.data.dropWhile Char.isWhitespace).reverse.dropWhile Char.isWhitespace).reverse⟩

/-- Model of Python `str.lower()` (ASCII). -/
def py_lower (s : String) : String := ⟨s.data.map Char.toLower⟩

/-- Model of Python `str.upper()` (ASCII). -/
def py_upper (s : String) : String := ⟨s.data.map Char.toUpper⟩

/-- Join a list of strings with a separator: Python `sep.join(l)`. -/
def join_sep (sep : String) : List String → String
  | [] => ""
  | [x] => x
  | x :: xs => x ++ sep ++ join_sep sep xs

/-- Model of the value carried by a raised exception's `value=` argument
(Python values of heterogeneous type). -/
inductive PyValue where
  | vNone
  | vStr (s : String)
  | vInt (n : Int)
  | vList (l : List String)
deriving DecidableEq

/-- `exceptions/validation_exceptions.py`: `ValidationError(message, field, value)`. -/
structure ValidationError where
  message : String
  field : Option String
  value : PyValue
deriving DecidableEq

/-- `exceptions/validation_exceptions.py`: `InvalidParameterTypeError`. -/
structure InvalidParameterTypeError where
  parameter : String
  expectedType : String
  receivedValue : String
deriving DecidableEq

/-- A parameter validator raises either a `ValidationError` or an
`InvalidParameterTypeError`. -/
inductive DoffinParamError where
  | validation (e : ValidationError)
  | invalidType (e : InvalidParameterTypeError)
deriving DecidableEq

instance {ε α : Type} [DecidableEq ε] [DecidableEq α] : DecidableEq (Except ε α) := fun a b =>
  match a, b with
  | .ok x, .ok y =>
    if h : x = y then .isTrue (by rw [h]) else .isFalse (fun c => h (Except.ok.inj c))
  | .error x, .error y =>
    if h : x = y then .isTrue (by rw [h]) else .isFalse (fun c => h (Except.error.inj c))
  | .ok _, .error _ => .isFalse (fun c => Except.noConfusion c)
  | .error _, .ok _ => .isFalse (fun c => Except.noConfusion c)

/-- One row of a parsed SSB classification table (one row of the
pandas DataFrame restricted to the four required columns).  A missing
`parentCode` cell (pandas `NaN`) is modelled as `none`. -/
structure Row where
  code : String
  parentCode : Option String
  level : Nat
  name : String
deriving DecidableEq

/-- The loaded classification table `self._df`, in row order. -/
abbrev Table := List Row

/-- A `{code, name}` dictionary as produced by `get_by_level` / `get_children`. -/
structure Entry where
  code : String
  name : String
deriving DecidableEq

/-- `SSBService._codes_dict`: `dict(zip(df.code, df.name))` lookup.  A Python
dict built from `zip` keeps the *last* occurrence of a duplicated key, hence
the search over the reversed row list. -/
def SSBService.codes_dict (rows : Table) (code : String) : Option String :=
  (rows.reverse.find? (fun r => r.code == code)).map Row.name

/-- `SSBService.get_description`. -/
def SSBService.get_description (rows : Table) (code : String) : Option String :=
  SSBService.codes_dict rows code

/-- `SSBService.get_code_by_name`: case-insensitive exact name match, then
optional level bound, then the first matching row (in table order). -/
def SSBService.get_code_by_name (rows : Table) (name : String)
    (max_level : Option Nat) : Option String :=
  let byName := rows.filter (fun r => py_lower r.name == py_lower name)
  let byLevel := match max_level with
    | some m => byName.filter (fun r : Row => r.level ≤ m)
    | none => byName
  byLevel.head?.map Row.code

/-- `SSBService.get_by_level`: all rows at exactly the given level, in row
order, as `{code, name}` entries. -/
def SSBService.get_by_level (rows : Table) (level : Nat) : List Entry :=
  (rows.filter (fun r => r.level == level)).map (fun r => ⟨r.code, r.name⟩)

/-- `SSBService.get_children`: all rows whose `parentCode` equals the given
code, in row order, as `{code, name}` entries. -/
def SSBService.get_children (rows : Table) (parent_code : String) : List Entry :=
  (rows.filter (fun r => r.parentCode == some parent_code)).map (fun r => ⟨r.code, r.name⟩)

/-- `SSBService.get_parent`: find the first row with the given code; `None`
when the code is unknown or its `parentCode` cell is missing; otherwise look
the parent's name up in the codes dict, returning `None` when that lookup is
falsy (absent key or empty name). -/
def SSBService.get_parent (rows : Table) (code : String) : Option Entry :=
  match rows.find? (fun r => r.code == code) with
  | none => none
  | some row =>
    match row.parentCode with
    | none => none
    | some pc =>
      match SSBService.get_description rows pc with
      | none => none
      | some pname => if pname = "" then none else some ⟨pc, pname⟩

/-- `DoffinService._is_nuts_code_format`: the regex `^[A-Z]{2}\d+$`
(two ASCII uppercase letters followed by one or more digits). -/
def is_nuts_code_format (value : String) : Bool :=
  match value.data with
  | c1 :: c2 :: rest => c1.isUpper && c2.isUpper && (!rest.isEmpty) && rest.all Char.isDigit
  | _ => false

/-- The body of the loop in `DoffinService._resolve_location_ids` for one
already-stripped location: `some code` when the location is appended to
`resolved_codes`, `none` when it is appended to `invalid_locations`.
NUTS-format locations must have a truthy description (present, non-empty
name); other locations must resolve by name at level ≤ 2 to a truthy code. -/
def DoffinService.resolve_step (rows : Table) (location : String) : Option String :=
  if is_nuts_code_format location then
    match SSBService.get_description rows location with
    | some d => if d = "" then none else some location
    | none => none
  else
    match SSBService.get_code_by_name rows location (some 2) with
    | some c => if c = "" then none else some c
    | none => none

/-- `DoffinService._resolve_location_ids`: strip each identifier, resolve
each one, and raise a `ValidationError` listing every invalid location if
any identifier failed to resolve. -/
def DoffinService.invalid_locations (rows : Table) (location_ids : List String) : List String :=
  (location_ids.map py_strip).filter (fun l => (DoffinService.resolve_step rows l).isNone)

def DoffinService.resolve_location_ids (rows : Table) (location_ids : List String) :
    Except ValidationError (List String) :=
  if (DoffinService.invalid_locations rows location_ids).isEmpty then
    .ok ((location_ids.map py_strip).filterMap (DoffinService.resolve_step rows))
  else .error
    { message := "Invalid location(s): '" ++
        join_sep ", " (DoffinService.invalid_locations rows location_ids) ++
        "'. Must be valid NUTS codes (e.g., 'NO081') or Norwegian county / region names (e.g., 'Oslo')."
      field := some "location"
      value := .vList (DoffinService.invalid_locations rows location_ids) }

/-- A node of the hierarchy built by `get_hierarchical_structure_by_level`:
a `{code, name}` dictionary with, optionally, a list of nested child nodes
under the domain- and level-specific key (`counties` / `municipalities` /
`subgroups` / `roles` / `titles`).  `children = none` models the absence of
the nesting key in the Python dictionary. -/
inductive HNode where
  | node (code : String) (name : String) (children : Option (List HNode))

def HNode.code : HNode → String
  | .node c _ _ => c

def HNode.name : HNode → String
  | .node _ n _ => n

def HNode.children : HNode → Option (List HNode)
  | .node _ _ ch => ch

/-- The county-name cleanup in the NUTS builder:
`county['name'].split('/')[0].strip()`. -/
def clean_county_name (s : String) : String :=
  py_strip ⟨s.data.takeWhile (fun c => c ≠ '/')⟩

/-- `NUTSService.get_hierarchical_structure_by_level` over the loaded table.
Level 1 returns the regions flat; level 2 attaches the counties untouched;
any higher level (the API validator admits only 3) attaches counties with
cleaned dual-language names, each with its municipalities. -/
def NUTSService.get_hierarchical_structure_by_level (rows : Table) (level : Nat) :
    List HNode :=
  let regions := SSBService.get_by_level rows 1
  if level = 1 then
    regions.map (fun e => .node e.code e.name none)
  else if level = 2 then
    regions.map (fun e => .node e.code e.name
      (some ((SSBService.get_children rows e.code).map (fun c => .node c.code c.name none))))
  else
    regions.map (fun e => .node e.code e.name
      (some ((SSBService.get_children rows e.code).map (fun c =>
        .node c.code (clean_county_name c.name)
          (some ((SSBService.get_children rows c.code).map
            (fun m => .node m.code m.name none)))))))

/-- `STYRKService.get_hierarchical_structure_by_level` over the loaded table:
same walk as the NUTS builder with keys `subgroups` / `roles` / `titles`,
up to level 4, and no name cleanup. -/
def STYRKService.get_hierarchical_structure_by_level (rows : Table) (level : Nat) :
    List HNode :=
  let groups := SSBService.get_by_level rows 1
  if level = 1 then
    groups.map (fun e => .node e.code e.name none)
  else if level = 2 then
    groups.map (fun e => .node e.code e.name
      (some ((SSBService.get_children rows e.code).map (fun c => .node c.code c.name none))))
  else if level = 3 then
    groups.map (fun e => .node e.code e.name
      (some ((SSBService.get_children rows e.code).map (fun c =>
        .node c.code c.name
          (some ((SSBService.get_children rows c.code).map
            (fun m => .node m.code m.name none)))))))
  else
    groups.map (fun e => .node e.code e.name
      (some ((SSBService.get_children rows e.code).map (fun c =>
        .node c.code c.name
          (some ((SSBService.get_children rows c.code).map (fun m =>
            .node m.code m.name
              (some ((SSBService.get_children rows m.code).map
                (fun t => .node t.code t.name none))))))))))

/-- Collect the codes sitting at nesting depth `d` (depth 0 = the top
level) of a built hierarchy, in traversal order. -/
def flatten_at_depth (ns : List HNode) : Nat → List String
  | 0 => ns.map HNode.code
  | d + 1 => ns.flatMap (fun n => flatten_at_depth (n.children.getD []) d)

/-- Digits-with-underscores tail of a Python integer literal: after the first
digit, underscores may appear only singly and between digits. -/
def py_int_digits : List Char → Bool
  | [] => true
  | '_' :: c :: rest => c.isDigit && py_int_digits rest
  | c :: rest => c.isDigit && py_int_digits rest

/-- Numeric value of a list of ASCII digits. -/
def nat_of_digits (cs : List Char) : Nat :=
  cs.foldl (fun acc c => acc * 10 + (c.toNat - 48)) 0

/-- Model of Python `int(s)` on `str` input: optional surrounding whitespace,
optional sign, then ASCII digits with optional single grouping underscores;
`none` models a raised `ValueError`. -/
def py_int_parse (s : String) : Option Int :=
  let signAndDigits : Int × List Char :=
    match (py_strip s).data with
    | '+' :: rest => (1, rest)
    | '-' :: rest => (-1, rest)
    | cs => (1, cs)
  match signAndDigits with
  | (_, []) => none
  | (sign, c :: rest) =>
    if c.isDigit && py_int_digits rest then
      some (sign * (nat_of_digits ((c :: rest).filter (fun x => x ≠ '_')) : Int))
    else none

/-- `doffin_validators.validate_hits_per_page`: parse as int (type error on
failure), then require the value to lie in `[1, 1000]`. -/
def validate_hits_per_page (hits_per_page_str : String) : Except DoffinParamError Int :=
  match py_int_parse hits_per_page_str with
  | none => .error (.invalidType ⟨"hitsPerPage", "integer", hits_per_page_str⟩)
  | some n =>
    if 1 ≤ n ∧ n ≤ 1000 then .ok n
    else .error (.validation ⟨"Parameter 'hitsPerPage' must be between 1 and 1000",
      some "hitsPerPage", .vInt n⟩)

/-- The `valid_statuses` set of `doffin_validators.validate_status`. -/
def valid_statuses : List String := ["ACTIVE", "EXPIRED", "CANCELLED", "AWARDED"]

/-- The loop of `validate_status`: normalise each entry (strip, uppercase),
skip entries that are empty after stripping, raise on the first entry outside
`valid_statuses`, collect the rest in order.  The error message joins
`sorted(valid_statuses)`, which is `ACTIVE, AWARDED, CANCELLED, EXPIRED`. -/
def validate_status_loop : List String → List String → Except ValidationError (List String)
  | [], acc => .ok acc
  | status :: rest, acc =>
    let s := py_upper (py_strip status)
    if s = "" then validate_status_loop rest acc
    else if valid_statuses.contains s then validate_status_loop rest (acc ++ [s])
    else .error ⟨"Invalid status '" ++ s ++ "'. Must be one of: ACTIVE, AWARDED, CANCELLED, EXPIRED",
      some "status", .vStr s⟩

/-- `doffin_validators.validate_status`. -/
def validate_status (status_list : List String) : Except ValidationError (Option (List String)) :=
  if status_list.isEmpty then .ok none
  else
    match validate_status_loop status_list [] with
    | .error e => .error e
    | .ok result => .ok (if result.isEmpty then none else some result)

/-- Split a character list at every occurrence of the separator. -/
def split_on_char (c : Char) : List Char → List (List Char)
  | [] => [[]]
  | x :: rest =>
    let r := split_on_char c rest
    if x = c then [] :: r
    else
      match r with
      | [] => [[x]]
      | h :: t => (x :: h) :: t

/-- Split a string at every occurrence of the separator character. -/
def split_string_on (c : Char) (s : String) : List String :=
  (split_on_char c s.data).map (fun l => ⟨l⟩)

/-- An empty CSV cell is read by pandas as `NaN`, modelled as `none`. -/
def parse_cell (s : String) : Option String := if s = "" then none else some s

/-- The errors `SSBService._load_data` can raise
(`exceptions/processing_exceptions.py`).  `dataProcessing` keeps the list of
missing column names alongside the formatted message. -/
inductive LoadError where
  | parsing (message : String)
  | dataProcessing (message : String) (missing : List String)
deriving DecidableEq

/-- The `required_columns` of `SSBService._load_data`.  The Python value is a
`set`; its iteration order is unspecified, so the model fixes this listing
order for the formatted message. -/
def required_columns : List String := ["code", "parentCode", "level", "name"]

/-- Model of `pd.read_csv(..., sep=";")` on the fetched text: the first
non-blank line is the header, blank lines are skipped, a data row with more
fields than the header is a tokenizing error (raised as `ParserError`), and
a row with fewer fields is padded with missing cells. -/
def parse_csv (raw : String) :
    Except String (List String × List (List (Option String))) :=
  let lines := (split_string_on '\n' raw).filter (fun l => l ≠ "")
  match lines with
  | [] => .error "No columns to parse from file"
  | header :: dataLines =>
    let cols := split_string_on ';' header
    let cells := dataLines.map (split_string_on ';')
    if cells.any (fun r => cols.length < r.length) then
      .error "Error tokenizing data"
    else
      .ok (cols, cells.map (fun r => r.map parse_cell ++ List.replicate (cols.length - r.length) none))

/-- The cell of a parsed row under a given column name. -/
def col_value (cols : List String) (cells : List (Option String)) (c : String) : Option String :=
  match cols.findIdx? (fun x => x == c) with
  | none => none
  | some i => cells.getD i none

/-- Build one `Row` from a parsed data row (pandas parses the `level` column
as integers; a non-numeric or missing cell is modelled as level 0, which is
outside every classification level). -/
def build_row (cols : List String) (cells : List (Option String)) : Row :=
  { code := (col_value cols cells "code").getD ""
    parentCode := col_value cols cells "parentCode"
    level :=
      match col_value cols cells "level" with
      | some s => ((py_int_parse s).map Int.toNat).getD 0
      | none => 0
    name := (col_value cols cells "name").getD "" }

/-- `SSBService._load_data`, run by `SSBService.__init__` before any other
operation of the service is reachable: parse the fetched text as
semicolon-delimited CSV (`ParsingError` on failure), then require all four
columns of `required_columns` (`DataProcessingError` naming the missing ones),
then build the table. -/
def SSBService.load_data (raw : String) : Except LoadError Table :=
  match parse_csv raw with
  | .error msg => .error (.parsing ("Failed to parse CSV data: " ++ msg))
  | .ok (cols, rows) =>
    let missing := required_columns.filter (fun c => !(cols.contains c))
    if missing.isEmpty then .ok (rows.map (build_row cols))
    else .error (.dataProcessing ("CSV missing required columns: " ++ join_sep ", " missing) missing)

/-- The errors `DoffinService.__init__` is specified/implemented to raise:
the implementation raises `ValueError`; `ConfigurationError` is the class
from `exceptions/internal_api_exceptions.py`. -/
inductive InitError where
  | valueError (message : String)
  | configurationError (message : String) (missing_config : Option String)
deriving DecidableEq

def InitError.isConfigurationError : InitError → Bool
  | .configurationError _ _ => true
  | _ => false

/-- `DoffinService.__init__`: read `DOFFIN_API_KEY` from the environment
(`none` models an unset variable) and raise when it is falsy (unset or
empty); on success the service holds the key. -/
def DoffinService.init (api_key_env : Option String) : Except InitError String :=
  match api_key_env with
  | none => .error (.valueError "DOFFIN_API_KEY not found in environment variables")
  | some k =>
    if k = "" then .error (.valueError "DOFFIN_API_KEY not found in environment variables")
    else .ok k

/-- Whether a constructed-or-failed service ended in a `ConfigurationError`. -/
def init_result_is_config_error : Except InitError String → Bool
  | .error e => e.isConfigurationError
  | .ok _ => false


/-! ### Specification-side definitions (for refinement comparisons)

The following definitions are written from the specification's wording, not
from the code; the theorems below compare the code's behaviour against
them. -/

/-- Spec-side: an identifier that fails to resolve, quoting the spec: a
code-format identifier absent from the index, or a name with no
case-insensitive level-≤2 match. -/
def spec_unresolved_location (rows : Table) (id : String) : Bool :=
  if is_nuts_code_format (py_strip id) then
    SSBService.get_description rows (py_strip id) == none
  else
    SSBService.get_code_by_name rows (py_strip id) (some 2) == none

/-- Spec-side: an identifier the resolver accepts, amended with what the
implementation's truthiness tests require: a code-format identifier present
in the index with a non-empty name, or a name matching (case-insensitively,
at level ≤ 2) a row with a non-empty code. -/
def spec_resolvable_location (rows : Table) (id : String) : Bool :=
  if is_nuts_code_format (py_strip id) then
    match SSBService.get_description rows (py_strip id) with
    | some d => d != ""
    | none => false
  else
    match SSBService.get_code_by_name rows (py_strip id) (some 2) with
    | some c => c != ""
    | none => false

/-- Spec-side: the code an identifier resolves to — a code-format identifier
passes through (stripped), any other identifier is replaced by its
name-match's code. -/
def spec_resolved_code (rows : Table) (id : String) : String :=
  if is_nuts_code_format (py_strip id) then py_strip id
  else (SSBService.get_code_by_name rows (py_strip id) (some 2)).getD ""

/-- The spec's parent-link invariant on a loaded table: level-1 rows have no
parent, and every other row's `parentCode` refers to an existing code at the
row's level minus 1. -/
def ParentLinkInvariant (rows : Table) : Prop :=
  ∀ r ∈ rows, (r.level = 1 → r.parentCode = none) ∧
    (r.level ≠ 1 → ∃ p ∈ rows, r.parentCode = some p.code ∧ p.level = r.level - 1)

/-! ### Concrete tables used by counterexamples and witnesses -/

/-- A well-formed three-level sample table (region / county / municipality). -/
def nuts_sample_table : Table :=
  [⟨"NO0", none, 1, "Norge"⟩,
   ⟨"NO08", some "NO0", 2, "Oslo"⟩,
   ⟨"NO081", some "NO08", 3, "Oslo kommune"⟩]

/-- A table whose single code has an empty name. -/
def rows_empty_name : Table := [⟨"NO1", none, 1, ""⟩]

/-- A table with a dangling parent link: code `B` names parent `A`, which is
not in the table. -/
def rows_dangling : Table := [⟨"B", some "A", 2, "b"⟩]

/-- A table satisfying the parent-link invariant but with a duplicated
level-1 code. -/
def rows_dup_codes : Table :=
  [⟨"A", none, 1, "x"⟩, ⟨"A", none, 1, "y"⟩, ⟨"B", some "A", 2, "z"⟩]

end BouvetRadar

namespace BouvetRadar

/-! ### C9: credential check at construction -/

/-- C9 counterexample: with `DOFFIN_API_KEY` unset, `DoffinService.__init__`
does raise at construction time, but the exception it raises is a plain
`ValueError`, not a `ConfigurationError` as the claim states. -/
theorem doffin_init_error_kind_cex :
    DoffinService.init none =
      .error (.valueError "DOFFIN_API_KEY not found in environment variables") ∧
    init_result_is_config_error (DoffinService.init none) = false := by
  exact ⟨rfl, rfl⟩

/-- C9 (amended): when the `DOFFIN_API_KEY` configuration value is absent or
empty, constructing the search service fails at construction time — no
search call is needed — but the error raised is a `ValueError`, not the
`ConfigurationError` kind. -/
theorem doffin_init_missing_key_amended (key : Option String)
    (h : key = none ∨ key = some "") :
    DoffinService.init key =
      .error (.valueError "DOFFIN_API_KEY not found in environment variables") := by
  rcases h with rfl | rfl <;> rfl

theorem doffin_init_missing_key_amended_witness :
    DoffinService.init (some "") =
      .error (.valueError "DOFFIN_API_KEY not found in environment variables") :=
  doffin_init_missing_key_amended (some "") (Or.inr rfl)

/-! ### C7: hitsPerPage validation -/

/-- C7: for every input string parsing as an integer in `[1, 1000]`,
`validate_hits_per_page` returns that integer; for every input parsing to an
integer outside the range it raises `ValidationError`; for every input that
does not parse as an integer it raises `InvalidParameterTypeError`. -/
theorem validate_hits_per_page_spec (s : String) (n : Int) :
    (py_int_parse s = some n → 1 ≤ n → n ≤ 1000 → validate_hits_per_page s = .ok n) ∧
    (py_int_parse s = some n → ¬(1 ≤ n ∧ n ≤ 1000) →
      validate_hits_per_page s = .error (.validation
        ⟨"Parameter 'hitsPerPage' must be between 1 and 1000", some "hitsPerPage", .vInt n⟩)) ∧
    (py_int_parse s = none →
      validate_hits_per_page s = .error (.invalidType ⟨"hitsPerPage", "integer", s⟩)) := by
  refine ⟨fun h h1 h2 => ?_, fun h hout => ?_, fun h => ?_⟩ <;>
    simp only [validate_hits_per_page, h]
  · rw [if_pos ⟨h1, h2⟩]
  · rw [if_neg hout]

theorem validate_hits_per_page_spec_witness :
    validate_hits_per_page "5" = .ok 5 ∧
    validate_hits_per_page "2000" = .error (.validation
      ⟨"Parameter 'hitsPerPage' must be between 1 and 1000", some "hitsPerPage", .vInt 2000⟩) ∧
    validate_hits_per_page "abc" = .error (.invalidType ⟨"hitsPerPage", "integer", "abc"⟩) :=
  ⟨(validate_hits_per_page_spec "5" 5).1 (by decide) (by decide) (by decide),
   (validate_hits_per_page_spec "2000" 2000).2.1 (by decide) (by decide),
   (validate_hits_per_page_spec "abc" 0).2.2 (by decide)⟩

/-! ### C5: level-1 hierarchies are flat -/

/-- C5: for every loaded table, building the hierarchy to level 1 — in both
the geographic (NUTS) and the occupational (STYRK) domain — returns exactly
the level-1 `{code, name}` rows in table row order, with no nested-children
key attached to any entry. -/
theorem build_level_one_flat (rows : Table) :
    NUTSService.get_hierarchical_structure_by_level rows 1 =
      (rows.filter (fun r => r.level == 1)).map (fun r => HNode.node r.code r.name none) ∧
    STYRKService.get_hierarchical_structure_by_level rows 1 =
      (rows.filter (fun r => r.level == 1)).map (fun r => HNode.node r.code r.name none) := by
  constructor <;>
    simp [NUTSService.get_hierarchical_structure_by_level,
      STYRKService.get_hierarchical_structure_by_level, SSBService.get_by_level,
      List.map_map, Function.comp]

/-! ### C10: name cleanup in the NUTS builder -/

/-- C10: in the NUTS hierarchy builder the dual-language cleanup (text before
the first `/`, trimmed) is applied only to county (level-2) names and only
when the requested level is 3 (the NUTS level validator admits only levels
1–3): at every requested level the region names are the stored level-1 names
unchanged; building to level 2 attaches counties with names exactly as
stored; building to level 3 attaches counties with cleaned names and
municipalities with names exactly as stored. -/
theorem nuts_name_cleanup_only_level3 (rows : Table) :
    (∀ lvl : Nat, (NUTSService.get_hierarchical_structure_by_level rows lvl).map HNode.name
        = (SSBService.get_by_level rows 1).map Entry.name) ∧
    NUTSService.get_hierarchical_structure_by_level rows 2 =
      (SSBService.get_by_level rows 1).map (fun e => HNode.node e.code e.name
        (some ((SSBService.get_children rows e.code).map
          (fun c => HNode.node c.code c.name none)))) ∧
    NUTSService.get_hierarchical_structure_by_level rows 3 =
      (SSBService.get_by_level rows 1).map (fun e => HNode.node e.code e.name
        (some ((SSBService.get_children rows e.code).map (fun c =>
          HNode.node c.code (clean_county_name c.name)
            (some ((SSBService.get_children rows c.code).map
              (fun m => HNode.node m.code m.name none))))))) := by
  refine ⟨fun lvl => ?_, ?_, ?_⟩
  · by_cases h1 : lvl = 1
    · subst h1
      simp [NUTSService.get_hierarchical_structure_by_level, List.map_map, Function.comp,
        HNode.name]
    · by_cases h2 : lvl = 2 <;>
        simp [NUTSService.get_hierarchical_structure_by_level, h1, h2, List.map_map,
          Function.comp, HNode.name]
  · simp [NUTSService.get_hierarchical_structure_by_level]
  · simp [NUTSService.get_hierarchical_structure_by_level]

end BouvetRadar

namespace BouvetRadar

/-! ### C6: status validation -/

/-- If the status loop succeeds, the result is the accumulator followed by
the normalised (stripped, uppercased) non-empty entries, all of which are
valid statuses. -/
theorem validate_status_loop_ok (l : List String) (acc res : List String)
    (h : validate_status_loop l acc = .ok res) :
    res = acc ++ (l.map (fun s => py_upper (py_strip s))).filter (fun s => s ≠ "") ∧
    ∀ s ∈ (l.map (fun s => py_upper (py_strip s))).filter (fun s => s ≠ ""),
      s ∈ valid_statuses := by
  induction l generalizing acc with
  | nil =>
    have hres : acc = res := by simpa [validate_status_loop] using h
    subst hres
    simp
  | cons x rest ih =>
    by_cases hx : py_upper (py_strip x) = ""
    · have h' : validate_status_loop rest acc = .ok res := by
        simpa [validate_status_loop, hx] using h
      obtain ⟨h1, h2⟩ := ih acc h'
      exact ⟨by simpa [hx] using h1, by simpa [hx] using h2⟩
    · by_cases hv : py_upper (py_strip x) ∈ valid_statuses
      · have h' : validate_status_loop rest (acc ++ [py_upper (py_strip x)]) = .ok res := by
          simpa [validate_status_loop, hx, hv] using h
        obtain ⟨h1, h2⟩ := ih _ h'
        constructor
        · simpa [hx, List.append_assoc] using h1
        · intro s hs
          simp only [List.map_cons, List.filter_cons] at hs
          rw [if_pos (by simpa using hx)] at hs
          rcases List.mem_cons.1 hs with rfl | hs'
          · exact hv
          · exact h2 s hs'
      · exfalso
        simp [validate_status_loop, hx, hv] at h

/-- If every entry of the list strips to the empty string, the status loop
returns the accumulator unchanged. -/
theorem validate_status_loop_skip (l : List String) (acc : List String)
    (h : ∀ s ∈ l, py_strip s = "") : validate_status_loop l acc = .ok acc := by
  induction l with
  | nil => rfl
  | cons x rest ih =>
    have hx : py_upper (py_strip x) = "" := by
      rw [h x (by simp)]; rfl
    simp only [validate_status_loop, hx, if_pos rfl]
    exact ih (fun s hs => h s (by simp [hs]))

end BouvetRadar

namespace BouvetRadar

set_option maxRecDepth 4000 in
/-- C6 counterexample: `validate_status(["active", "bogus"])` raises a
`ValidationError`, but the error names the normalised entry `BOGUS` — in its
message and its carried value — and the raw entry `bogus` appears nowhere in
it, so the claim's "naming \x22bogus\x22" does not hold as stated. -/
theorem validate_status_case_cex :
    validate_status ["active", "bogus"] =
      .error ⟨"Invalid status 'BOGUS'. Must be one of: ACTIVE, AWARDED, CANCELLED, EXPIRED",
        some "status", .vStr "BOGUS"⟩ ∧
    ¬ List.IsInfix "bogus".data
      "Invalid status 'BOGUS'. Must be one of: ACTIVE, AWARDED, CANCELLED, EXPIRED".data ∧
    PyValue.vStr "BOGUS" ≠ PyValue.vStr "bogus" := by
  refine ⟨by decide, by decide, by decide⟩

/-- C6 (amended): status validation trims and uppercases every entry and
requires membership in ACTIVE / EXPIRED / CANCELLED / AWARDED;
`validate_status(["active"])` returns `["ACTIVE"]`;
`validate_status(["active", "bogus"])` raises a `ValidationError` naming the
normalised entry `BOGUS` (the trimmed, uppercased form of `"bogus"`); for
any list whose entries are all empty after trimming (or an empty list) the
result is absent (`None`) rather than an error. -/
theorem validate_status_amended :
    validate_status ["active"] = .ok (some ["ACTIVE"]) ∧
    validate_status ["active", "bogus"] =
      .error ⟨"Invalid status 'BOGUS'. Must be one of: ACTIVE, AWARDED, CANCELLED, EXPIRED",
        some "status", .vStr "BOGUS"⟩ ∧
    (∀ l : List String, (∀ s ∈ l, py_strip s = "") → validate_status l = .ok none) ∧
    (∀ l res, validate_status l = .ok (some res) →
      res = (l.map (fun s => py_upper (py_strip s))).filter (fun s => s ≠ "") ∧
      ∀ s ∈ res, s ∈ valid_statuses) := by
  refine ⟨by decide, by decide, fun l hl => ?_, fun l res h => ?_⟩
  · rcases l with _ | ⟨x, rest⟩
    · rfl
    · simp only [validate_status, List.isEmpty_cons, Bool.false_eq_true, if_false]
      rw [validate_status_loop_skip _ _ hl]
      rfl
  · rcases l with _ | ⟨x, rest⟩
    · simp [validate_status] at h
    · simp only [validate_status, List.isEmpty_cons, Bool.false_eq_true, if_false] at h
      rcases heq : validate_status_loop (x :: rest) [] with e | result
      · rw [heq] at h; exact absurd h (by simp)
      · rw [heq] at h
        obtain ⟨h1, h2⟩ := validate_status_loop_ok _ _ _ heq
        rcases result with _ | ⟨y, ys⟩
        · exact absurd h (by simp)
        · have hres : y :: ys = res := by simpa using h
          subst hres
          have h1' : y :: ys =
              ((x :: rest).map (fun s => py_upper (py_strip s))).filter (fun s => s ≠ "") := by
            simpa using h1
          exact ⟨h1', fun s hs => h2 s (h1' ▸ hs)⟩

theorem validate_status_amended_witness :
    validate_status ["  ", ""] = .ok none :=
  validate_status_amended.2.2.1 ["  ", ""] (by decide)

end BouvetRadar

namespace BouvetRadar

/-! ### C1 and C2: location resolution -/

/-- A `filterMap` whose function succeeds everywhere is a `map`. -/
theorem filterMap_eq_map_of_all_some {α β : Type} {f : α → Option β} {g : α → β}
    {l : List α} (h : ∀ x ∈ l, f x = some (g x)) : l.filterMap f = l.map g := by
  induction l with
  | nil => rfl
  | cons x rest ih =>
    rw [List.filterMap_cons, List.map_cons, h x (by simp),
      ih (fun y hy => h y (by simp [hy]))]

/-- A spec-resolvable identifier is accepted by the loop body, yielding the
spec-side resolved code. -/
theorem resolve_step_of_spec_resolvable {rows : Table} {id : String}
    (h : spec_resolvable_location rows id = true) :
    DoffinService.resolve_step rows (py_strip id) = some (spec_resolved_code rows id) := by
  unfold spec_resolvable_location at h
  unfold DoffinService.resolve_step spec_resolved_code
  by_cases hb : is_nuts_code_format (py_strip id)
  · rw [if_pos hb] at h ⊢
    rw [if_pos hb]
    rcases hd : SSBService.get_description rows (py_strip id) with _ | d
    · rw [hd] at h; exact absurd h (by simp)
    · rw [hd] at h
      have hd' : d ≠ "" := by simpa using h
      simp [hd']
  · rw [if_neg hb] at h ⊢
    rw [if_neg hb]
    rcases hc : SSBService.get_code_by_name rows (py_strip id) (some 2) with _ | c
    · rw [hc] at h; exact absurd h (by simp)
    · rw [hc] at h
      have hc' : c ≠ "" := by simpa using h
      simp [hc']

/-- A spec-unresolved identifier is rejected by the loop body. -/
theorem resolve_step_of_spec_unresolved {rows : Table} {id : String}
    (h : spec_unresolved_location rows id = true) :
    DoffinService.resolve_step rows (py_strip id) = none := by
  unfold spec_unresolved_location at h
  unfold DoffinService.resolve_step
  by_cases hb : is_nuts_code_format (py_strip id)
  · rw [if_pos hb] at h
    rw [if_pos hb, show SSBService.get_description rows (py_strip id) = none by simpa using h]
  · rw [if_neg hb] at h
    rw [if_neg hb, show SSBService.get_code_by_name rows (py_strip id) (some 2) = none by
      simpa using h]

/-- C1 counterexample: with the table containing a row whose code `NO1` has
an empty name, the identifier `NO1` matches the NUTS code format and its
code exists in the loaded classification index (`get_description` returns a
value), yet resolution does not pass it through: the implementation's
truthiness test on the description rejects the empty name and raises
instead. -/
theorem resolve_location_unchanged_cex :
    is_nuts_code_format "NO1" = true ∧
    SSBService.get_description rows_empty_name "NO1" = some "" ∧
    DoffinService.resolve_location_ids rows_empty_name ["NO1"] ≠ .ok ["NO1"] ∧
    DoffinService.resolve_location_ids rows_empty_name ["NO1"] =
      .error ⟨"Invalid location(s): 'NO1'. Must be valid NUTS codes (e.g., 'NO081') or Norwegian county / region names (e.g., 'Oslo').",
        some "location", .vList ["NO1"]⟩ := by
  refine ⟨by decide, by decide, by decide, by decide⟩

/-- C1 (amended): identifiers are stripped of surrounding whitespace; for
every list of location identifiers in which every identifier resolves —
each stripped identifier of NUTS code format has its code in the index with
a non-empty name, and every other identifier has a case-insensitive exact
name match restricted to levels ≤ 2 with a non-empty code — resolution
succeeds and returns, in the order of the input identifiers, the stripped
code-format identifiers unchanged and the name-matches' codes. -/
theorem resolve_location_resolved_order_amended (rows : Table) (ids : List String)
    (h : ∀ id ∈ ids, spec_resolvable_location rows id = true) :
    DoffinService.resolve_location_ids rows ids = .ok (ids.map (spec_resolved_code rows)) := by
  unfold DoffinService.resolve_location_ids
  have hstep : ∀ id ∈ ids,
      DoffinService.resolve_step rows (py_strip id) = some (spec_resolved_code rows id) :=
    fun id hid => resolve_step_of_spec_resolvable (h id hid)
  have hfm : (ids.map py_strip).filterMap (DoffinService.resolve_step rows)
      = ids.map (spec_resolved_code rows) := by
    rw [List.filterMap_map]
    exact filterMap_eq_map_of_all_some (fun id hid => hstep id hid)
  have hfilter : DoffinService.invalid_locations rows ids = [] := by
    unfold DoffinService.invalid_locations
    rw [List.filter_map, List.filter_eq_nil_iff.2 (fun id hid => ?_), List.map_nil]
    simp [Function.comp, hstep id hid]
  rw [hfm, hfilter]
  simp

theorem resolve_location_resolved_order_amended_witness :
    DoffinService.resolve_location_ids nuts_sample_table ["NO081", " oslo "] =
      .ok ["NO081", "NO08"] :=
  resolve_location_resolved_order_amended nuts_sample_table ["NO081", " oslo "] (by decide)

/-- C2: if at least one identifier of the list fails to resolve (a
code-format identifier absent from the index, or a name with no
case-insensitive level-≤2 match), resolution raises a `ValidationError` on
the `location` field whose carried value lists every unresolved identifier
of the full list, not only the first one.  (Identifiers are assumed free of
surrounding whitespace, as produced by `validate_location_ids`; the error
lists the stripped form of each identifier.) -/
theorem resolve_location_batch_error (rows : Table) (ids : List String)
    (hfix : ∀ id ∈ ids, py_strip id = id)
    (h : ∃ id ∈ ids, spec_unresolved_location rows id = true) :
    ∃ e, DoffinService.resolve_location_ids rows ids = .error e ∧
      e.field = some "location" ∧
      ∃ inv, e.value = .vList inv ∧
        ∀ id ∈ ids, spec_unresolved_location rows id = true → id ∈ inv := by
  have hids : ids.map py_strip = ids := by
    rw [List.map_congr_left hfix]
    simp
  obtain ⟨id0, hid0, hu0⟩ := h
  have hinv : ∀ id ∈ ids, spec_unresolved_location rows id = true →
      id ∈ DoffinService.invalid_locations rows ids := by
    intro id hid hu
    unfold DoffinService.invalid_locations
    rw [hids, List.mem_filter]
    refine ⟨hid, ?_⟩
    have := resolve_step_of_spec_unresolved hu
    rw [hfix id hid] at this
    simp [this]
  have hne : (DoffinService.invalid_locations rows ids).isEmpty = false := by
    rcases hf : DoffinService.invalid_locations rows ids with _ | _
    · rw [hf] at hinv; exact absurd (hinv id0 hid0 hu0) (by simp)
    · rfl
  unfold DoffinService.resolve_location_ids
  rw [hne]
  simp only [Bool.false_eq_true, if_false]
  exact ⟨_, rfl, rfl, _, rfl, hinv⟩

theorem resolve_location_batch_error_witness :
    ∃ e, DoffinService.resolve_location_ids nuts_sample_table ["Nonexistent", "XX9"] = .error e ∧
      e.field = some "location" ∧
      ∃ inv, e.value = .vList inv ∧
        ∀ id ∈ ["Nonexistent", "XX9"],
          spec_unresolved_location nuts_sample_table id = true → id ∈ inv :=
  resolve_location_batch_error nuts_sample_table ["Nonexistent", "XX9"]
    (by decide) ⟨"Nonexistent", by decide, by decide⟩

end BouvetRadar

namespace BouvetRadar

/-! ### C4: description and parent lookups -/

/-- With pairwise-distinct codes, searching for a member row's code finds
exactly that row. -/
theorem find_row_of_mem {rows : Table} (hnd : (rows.map Row.code).Nodup)
    {r : Row} (hr : r ∈ rows) :
    rows.find? (fun x => x.code == r.code) = some r := by
  induction rows with
  | nil => exact absurd hr (by simp)
  | cons a t ih =>
    by_cases hac : a.code = r.code
    · have hb : (a.code == r.code) = true := by simpa using hac
      rw [List.find?_cons, hb]
      rcases List.mem_cons.1 hr with rfl | hrt
      · rfl
      · exfalso
        have hmem : r.code ∈ t.map Row.code := List.mem_map.2 ⟨r, hrt, rfl⟩
        rw [← hac] at hmem
        exact (List.nodup_cons.1 (by simpa using hnd)).1 hmem
    · have hb : (a.code == r.code) = false := by simpa using hac
      rw [List.find?_cons, hb]
      have hrt : r ∈ t := by
        rcases List.mem_cons.1 hr with rfl | hrt
        · exact absurd rfl hac
        · exact hrt
      exact ih (List.nodup_cons.1 (by simpa using hnd)).2 hrt

/-- With pairwise-distinct codes, the codes dictionary maps a member row's
code to that row's name. -/
theorem get_description_of_mem {rows : Table} (hnd : (rows.map Row.code).Nodup)
    {r : Row} (hr : r ∈ rows) :
    SSBService.get_description rows r.code = some r.name := by
  unfold SSBService.get_description SSBService.codes_dict
  rw [find_row_of_mem (by rw [List.map_reverse]; exact List.nodup_reverse.2 hnd)
    (List.mem_reverse.2 hr)]
  rfl

/-- If no row carries a code, the codes dictionary has no entry for it. -/
theorem get_description_of_not_mem {rows : Table} {c : String}
    (h : ∀ p ∈ rows, p.code ≠ c) : SSBService.get_description rows c = none := by
  unfold SSBService.get_description SSBService.codes_dict
  rw [List.find?_eq_none.2 (fun x hx => by simpa using h x (List.mem_reverse.1 hx))]
  rfl

/-- C4 counterexample: in a table with distinct codes, row `B` has the
non-empty parent field `A`, but `A` is not a code of the table, so
`get_parent` returns `None` — the claim's "returns absent exactly when the
parentCode field is empty" fails on dangling parent links. -/
theorem get_parent_dangling_cex :
    (rows_dangling.map Row.code).Nodup ∧
    (⟨"B", some "A", 2, "b"⟩ : Row) ∈ rows_dangling ∧
    (Row.parentCode ⟨"B", some "A", 2, "b"⟩ ≠ none) ∧
    SSBService.get_parent rows_dangling "B" = none := by
  refine ⟨by decide, by decide, by decide, by decide⟩

/-- C4 (amended): for every loaded table with distinct codes and every row
of the table, `description` of the row's code returns the row's name;
`parent` returns `None` when the row's `parentCode` field is empty; and when
the `parentCode` field is non-empty, `parent` returns the parent's code
together with its name provided a row with that code and a non-empty name
exists — while a dangling parent code, or a parent whose name is empty,
also yields `None`. -/
theorem description_parent_amended (rows : Table) (hnd : (rows.map Row.code).Nodup)
    (r : Row) (hr : r ∈ rows) :
    SSBService.get_description rows r.code = some r.name ∧
    (r.parentCode = none → SSBService.get_parent rows r.code = none) ∧
    (∀ pc, r.parentCode = some pc →
      (∀ p ∈ rows, p.code = pc → p.name ≠ "" →
        SSBService.get_parent rows r.code = some ⟨pc, p.name⟩) ∧
      ((∀ p ∈ rows, p.code ≠ pc) → SSBService.get_parent rows r.code = none) ∧
      (∀ p ∈ rows, p.code = pc → p.name = "" →
        SSBService.get_parent rows r.code = none)) := by
  have hfind := find_row_of_mem hnd hr
  refine ⟨get_description_of_mem hnd hr, fun hp => ?_, fun pc hpc => ⟨?_, ?_, ?_⟩⟩
  · simp [SSBService.get_parent, hfind, hp]
  · intro p hp hcode hname
    have hdesc : SSBService.get_description rows pc = some p.name :=
      hcode ▸ get_description_of_mem hnd hp
    simp [SSBService.get_parent, hfind, hpc, hdesc, hname]
  · intro hnone
    simp [SSBService.get_parent, hfind, hpc, get_description_of_not_mem hnone]
  · intro p hp hcode hname
    have hdesc : SSBService.get_description rows pc = some p.name :=
      hcode ▸ get_description_of_mem hnd hp
    simp [SSBService.get_parent, hfind, hpc, hdesc, hname]

theorem description_parent_amended_witness :
    SSBService.get_description nuts_sample_table "NO08" = some "Oslo" ∧
    (Row.parentCode ⟨"NO08", some "NO0", 2, "Oslo"⟩ = none →
      SSBService.get_parent nuts_sample_table "NO08" = none) ∧
    (∀ pc, Row.parentCode ⟨"NO08", some "NO0", 2, "Oslo"⟩ = some pc →
      (∀ p ∈ nuts_sample_table, p.code = pc → p.name ≠ "" →
        SSBService.get_parent nuts_sample_table "NO08" = some ⟨pc, p.name⟩) ∧
      ((∀ p ∈ nuts_sample_table, p.code ≠ pc) →
        SSBService.get_parent nuts_sample_table "NO08" = none) ∧
      (∀ p ∈ nuts_sample_table, p.code = pc → p.name = "" →
        SSBService.get_parent nuts_sample_table "NO08" = none)) :=
  description_parent_amended nuts_sample_table (by decide)
    ⟨"NO08", some "NO0", 2, "Oslo"⟩ (by decide)

end BouvetRadar

namespace BouvetRadar

/-! ### C8: table loading errors at construction -/

/-- C8: loading a classification table is performed by the service
constructor (`SSBService.__init__` runs `_load_data` before any hierarchy
operation is reachable; the hierarchy operations are defined only on the
successfully constructed `Table`).  When the parsed columns omit any of the
four required fields, loading fails with a `DataProcessingError` whose
missing-columns list names every absent required field — so no table is
produced; input whose rows cannot be parsed as well-formed delimited data
fails with a `ParsingError` instead. -/
theorem load_data_missing_columns :
    (∀ raw cols cells, parse_csv raw = .ok (cols, cells) →
      (∃ c ∈ required_columns, c ∉ cols) →
      ∃ missing, SSBService.load_data raw =
          .error (.dataProcessing
            ("CSV missing required columns: " ++ join_sep ", " missing) missing) ∧
        missing ≠ [] ∧
        (∀ c ∈ required_columns, c ∉ cols → c ∈ missing) ∧
        (∀ t : Table, SSBService.load_data raw ≠ .ok t)) ∧
    (∀ raw msg, parse_csv raw = .error msg →
      SSBService.load_data raw = .error (.parsing ("Failed to parse CSV data: " ++ msg))) := by
  constructor
  · intro raw cols cells hparse hmissing
    obtain ⟨c0, hc0r, hc0n⟩ := hmissing
    have hc0f : c0 ∈ required_columns.filter (fun c => !(cols.contains c)) :=
      List.mem_filter.2 ⟨hc0r, by simpa using hc0n⟩
    have hne : (required_columns.filter (fun c => !(cols.contains c))).isEmpty = false := by
      rcases hf : required_columns.filter (fun c => !(cols.contains c)) with _ | _
      · rw [hf] at hc0f; exact absurd hc0f (by simp)
      · rfl
    have heq : SSBService.load_data raw = .error (.dataProcessing
        ("CSV missing required columns: " ++
          join_sep ", " (required_columns.filter (fun c => !(cols.contains c))))
        (required_columns.filter (fun c => !(cols.contains c)))) := by
      simp only [SSBService.load_data, hparse, hne, Bool.false_eq_true, if_false]
    refine ⟨_, heq, fun hemp => ?_,
      fun c hcr hcn => List.mem_filter.2 ⟨hcr, by simpa using hcn⟩, fun t ht => ?_⟩
    · rw [hemp] at hc0f; exact absurd hc0f (by simp)
    · rw [heq] at ht; exact Except.noConfusion ht
  · intro raw msg hparse
    simp only [SSBService.load_data, hparse]

end BouvetRadar

namespace BouvetRadar

theorem load_data_missing_columns_witness :
    ∃ missing, SSBService.load_data "code;parentCode;name\nNO0;;Norge" =
        .error (.dataProcessing
          ("CSV missing required columns: " ++ join_sep ", " missing) missing) ∧
      missing ≠ [] ∧
      (∀ c ∈ required_columns, c ∉ ["code", "parentCode", "name"] → c ∈ missing) ∧
      (∀ t : Table, SSBService.load_data "code;parentCode;name\nNO0;;Norge" ≠ .ok t) :=
  load_data_missing_columns.1 "code;parentCode;name\nNO0;;Norge"
    ["code", "parentCode", "name"] [[some "NO0", none, some "Norge"]]
    (by decide) ⟨"level", by decide, by decide⟩

end BouvetRadar

namespace BouvetRadar

/-! ### C3: hierarchy round-trip -/

/-- Core counting argument: under the parent-link invariant and with
pairwise-distinct codes, gathering the child rows of every level-`k` row
yields exactly the level-`k+1` rows, up to permutation. -/
theorem rows_level_flatMap_children_perm (rows : Table)
    (hInv : ParentLinkInvariant rows) (hnd : (rows.map Row.code).Nodup)
    (k : Nat) (hk : 1 ≤ k) :
    ((rows.filter (fun r => r.level == k)).flatMap
        (fun r => rows.filter (fun x => x.parentCode == some r.code))).Perm
      (rows.filter (fun x => x.level == k + 1)) := by
  have hrows : rows.Nodup := List.Nodup.of_map _ hnd
  have hinj : ∀ ⦃x : Row⦄, x ∈ rows → ∀ ⦃y : Row⦄, y ∈ rows → x.code = y.code → x = y :=
    List.inj_on_of_nodup_map hnd
  have hpairs : (rows.filter (fun r => r.level == k)).Pairwise
      (fun a b => a.code ≠ b.code) :=
    (List.pairwise_map.1 hnd).filter _
  have hnd1 : ((rows.filter (fun r => r.level == k)).flatMap
      (fun r => rows.filter (fun x => x.parentCode == some r.code))).Nodup := by
    rw [List.nodup_flatMap]
    refine ⟨fun r _ => hrows.filter _, hpairs.imp ?_⟩
    intro a b hne x hxa hxb
    have e1 : x.parentCode = some a.code := by simpa using (List.mem_filter.1 hxa).2
    have e2 : x.parentCode = some b.code := by simpa using (List.mem_filter.1 hxb).2
    rw [e1] at e2
    exact hne (Option.some.inj e2)
  have hnd2 : (rows.filter (fun x => x.level == k + 1)).Nodup := hrows.filter _
  refine (List.perm_ext_iff_of_nodup hnd1 hnd2).2 (fun x => ⟨fun hx => ?_, fun hx => ?_⟩)
  · obtain ⟨r, hr, hxr⟩ := List.mem_flatMap.1 hx
    obtain ⟨hrm, hrl⟩ := List.mem_filter.1 hr
    have hrlevel : r.level = k := by simpa using hrl
    obtain ⟨hxm, hxp⟩ := List.mem_filter.1 hxr
    have hxpar : x.parentCode = some r.code := by simpa using hxp
    have hx1 : x.level ≠ 1 := by
      intro h1
      rw [(hInv x hxm).1 h1] at hxpar
      exact Option.noConfusion hxpar
    obtain ⟨p, hpm, hppar, hplevel⟩ := (hInv x hxm).2 hx1
    have hcode : p.code = r.code := by
      apply Option.some.inj
      rw [← hppar, ← hxpar]
    have hpr : p = r := hinj hpm hrm hcode
    have hsub : x.level - 1 = k := by rw [← hplevel, hpr, hrlevel]
    have hxk : x.level = k + 1 := by omega
    exact List.mem_filter.2 ⟨hxm, by simpa using hxk⟩
  · obtain ⟨hxm, hxl⟩ := List.mem_filter.1 hx
    have hxlevel : x.level = k + 1 := by simpa using hxl
    have hx1 : x.level ≠ 1 := by omega
    obtain ⟨p, hpm, hppar, hplevel⟩ := (hInv x hxm).2 hx1
    have hpk : p.level = k := by rw [hplevel, hxlevel]; omega
    exact List.mem_flatMap.2 ⟨p, List.mem_filter.2 ⟨hpm, by simpa using hpk⟩,
      List.mem_filter.2 ⟨hxm, by simpa using hppar⟩⟩

/-- The same counting argument at the level of `{code, name}` entries, as
returned by `get_by_level` and `get_children`. -/
theorem entry_level_flatMap_children_perm (rows : Table)
    (hInv : ParentLinkInvariant rows) (hnd : (rows.map Row.code).Nodup)
    (k : Nat) (hk : 1 ≤ k) :
    ((SSBService.get_by_level rows k).flatMap
        (fun e => SSBService.get_children rows e.code)).Perm
      (SSBService.get_by_level rows (k + 1)) := by
  unfold SSBService.get_by_level SSBService.get_children
  rw [List.flatMap_map, ← List.map_flatMap]
  exact (rows_level_flatMap_children_perm rows hInv hnd k hk).map _

end BouvetRadar

namespace BouvetRadar

/-- Depth 0 of any NUTS hierarchy lists the level-1 codes. -/
theorem flatten_nuts_depth0 (rows : Table) (N : Nat) :
    flatten_at_depth (NUTSService.get_hierarchical_structure_by_level rows N) 0 =
      (SSBService.get_by_level rows 1).map Entry.code := by
  unfold NUTSService.get_hierarchical_structure_by_level
  by_cases h1 : N = 1
  · simp [h1, flatten_at_depth, List.map_map, Function.comp, HNode.code]
  · by_cases h2 : N = 2 <;>
      simp [h1, h2, flatten_at_depth, List.map_map, Function.comp, HNode.code]

/-- Depth 1 of the NUTS hierarchy built to level 2 lists each region's
children's codes. -/
theorem flatten_nuts2_depth1 (rows : Table) :
    flatten_at_depth (NUTSService.get_hierarchical_structure_by_level rows 2) 1 =
      (SSBService.get_by_level rows 1).flatMap
        (fun e => (SSBService.get_children rows e.code).map Entry.code) := by
  unfold NUTSService.get_hierarchical_structure_by_level
  simp [flatten_at_depth, List.flatMap_map, List.map_map, Function.comp,
    HNode.children, HNode.code]
  rfl

/-- Depth 1 of the NUTS hierarchy built to level 3 lists each region's
children's codes (the name cleanup does not touch codes). -/
theorem flatten_nuts3_depth1 (rows : Table) :
    flatten_at_depth (NUTSService.get_hierarchical_structure_by_level rows 3) 1 =
      (SSBService.get_by_level rows 1).flatMap
        (fun e => (SSBService.get_children rows e.code).map Entry.code) := by
  unfold NUTSService.get_hierarchical_structure_by_level
  simp [flatten_at_depth, List.flatMap_map, List.map_map, Function.comp,
    HNode.children, HNode.code]
  rfl

/-- Depth 2 of the NUTS hierarchy built to level 3 lists each county's
children's codes. -/
theorem flatten_nuts3_depth2 (rows : Table) :
    flatten_at_depth (NUTSService.get_hierarchical_structure_by_level rows 3) 2 =
      (SSBService.get_by_level rows 1).flatMap (fun e =>
        (SSBService.get_children rows e.code).flatMap (fun c =>
          (SSBService.get_children rows c.code).map Entry.code)) := by
  unfold NUTSService.get_hierarchical_structure_by_level
  simp [flatten_at_depth, List.flatMap_map, List.map_map, Function.comp,
    HNode.children, HNode.code]
  rfl

end BouvetRadar

namespace BouvetRadar

/-- C3 counterexample: the parent-link invariant alone does not suffice — a
table with a duplicated level-1 code satisfies it, yet flattening the
hierarchy built to level 2 counts the shared child twice, so the multiset of
codes at depth 2 differs from `get_by_level 2`. -/
theorem hierarchy_roundtrip_cex :
    ParentLinkInvariant rows_dup_codes ∧
    ¬ (flatten_at_depth
          (NUTSService.get_hierarchical_structure_by_level rows_dup_codes 2) 1).Perm
        ((SSBService.get_by_level rows_dup_codes 2).map Entry.code) := by
  constructor
  · unfold ParentLinkInvariant
    decide
  · intro h
    have hlen := h.length_eq
    simp [rows_dup_codes, NUTSService.get_hierarchical_structure_by_level,
      SSBService.get_by_level, SSBService.get_children, flatten_at_depth,
      HNode.children, Option.getD] at hlen

/-- C3 (amended): for every loaded table satisfying the parent-link
invariant and with pairwise-distinct codes, and every requested level `N`
within the NUTS domain maximum of 3, flattening the tree returned by the
hierarchy builder — collecting the codes at each nesting depth — yields,
for every level `L ≤ N`, the same multiset of codes as `get_by_level L`. -/
theorem hierarchy_roundtrip_amended (rows : Table)
    (hInv : ParentLinkInvariant rows) (hnd : (rows.map Row.code).Nodup)
    (N L : Nat) (hN : 1 ≤ N ∧ N ≤ 3) (hL : 1 ≤ L ∧ L ≤ N) :
    (flatten_at_depth (NUTSService.get_hierarchical_structure_by_level rows N) (L - 1)).Perm
      ((SSBService.get_by_level rows L).map Entry.code) := by
  obtain ⟨hN1, hN3⟩ := hN
  obtain ⟨hL1, hLN⟩ := hL
  have step1 :
      ((SSBService.get_by_level rows 1).flatMap
          (fun e => (SSBService.get_children rows e.code).map Entry.code)).Perm
        ((SSBService.get_by_level rows 2).map Entry.code) := by
    have h := (entry_level_flatMap_children_perm rows hInv hnd 1 le_rfl).map Entry.code
    rw [List.map_flatMap] at h
    exact h
  interval_cases N
  · interval_cases L
    · rw [show (1 : Nat) - 1 = 0 from rfl, flatten_nuts_depth0]
  · interval_cases L
    · rw [show (1 : Nat) - 1 = 0 from rfl, flatten_nuts_depth0]
    · rw [show (2 : Nat) - 1 = 1 from rfl, flatten_nuts2_depth1]
      exact step1
  · interval_cases L
    · rw [show (1 : Nat) - 1 = 0 from rfl, flatten_nuts_depth0]
    · rw [show (2 : Nat) - 1 = 1 from rfl, flatten_nuts3_depth1]
      exact step1
    · rw [show (3 : Nat) - 1 = 2 from rfl, flatten_nuts3_depth2]
      have h1 := entry_level_flatMap_children_perm rows hInv hnd 1 le_rfl
      have h2 := entry_level_flatMap_children_perm rows hInv hnd 2 (by omega)
      rw [← List.flatMap_assoc]
      refine (h1.flatMap_right _).trans ?_
      rw [show ((SSBService.get_by_level rows 2).flatMap
          (fun c => (SSBService.get_children rows c.code).map Entry.code))
          = ((SSBService.get_by_level rows 2).flatMap
              (fun c => SSBService.get_children rows c.code)).map Entry.code from
        (List.map_flatMap _ _ _).symm]
      exact h2.map _

theorem hierarchy_roundtrip_amended_witness :
    (flatten_at_depth
        (NUTSService.get_hierarchical_structure_by_level nuts_sample_table 3) (3 - 1)).Perm
      ((SSBService.get_by_level nuts_sample_table 3).map Entry.code) :=
  hierarchy_roundtrip_amended nuts_sample_table
    (by unfold ParentLinkInvariant; decide) (by decide) 3 3 (by decide) (by decide)

end BouvetRadar
